import Mathlib

/-!
Verification of the multichain.js JSON-RPC client core.

The development shallowly embeds the two source files:
* `jsonrpc.js` — the JSON-RPC client (`request`, `JSONRPCRequest`,
  `JSONRPCClient` with `handleDefaults`, `handleCasing`, `call`, the
  `commands` setter that installs convenience bindings);
* `multichain.js` — the `Client` subclass with `getConnectionByName` and
  `getChainNames` (connection resolution from local configuration files).

JavaScript values are modelled by the inductive type `JSValue`; JS
truthiness and `typeof x === 'object'` are explicit boolean functions.
External collaborators (the `uuid` generator, `JSON.parse`, the HTTP
stack, the filesystem) are modelled at their boundary: fresh ids and file
contents are explicit parameters, and response bodies are carried as
unparsed strings.  Stateful code (in-place mutation of the shared
connection-options object) is modelled by explicit state passing through a
store of numbered references.
-/

set_option autoImplicit false

namespace Multichain

/-- A JavaScript value, restricted to the shapes the client manipulates:
`undefined`, `null`, booleans, (integer) numbers, strings, plain objects
(records, as ordered field lists) and arrays. -/
inductive JSValue where
  | undefined : JSValue
  | null : JSValue
  | bool (b : Bool) : JSValue
  | num (n : Int) : JSValue
  | str (s : String) : JSValue
  | obj (fields : List (String × JSValue)) : JSValue
  | arr (elems : List JSValue) : JSValue

/-- JS truthiness: `undefined`, `null`, `false`, `0` and `""` are falsy;
every object or array is truthy. -/
def jsTruthy : JSValue → Bool
  | .undefined => false
  | .null => false
  | .bool b => b
  | .num n => n != 0
  | .str s => s != ""
  | .obj _ => true
  | .arr _ => true

/-- The JS test `typeof v === 'object'`: true for `null`, plain objects and
arrays; false for `undefined`, booleans, numbers and strings. -/
def typeofIsObject : JSValue → Bool
  | .null => true
  | .obj _ => true
  | .arr _ => true
  | _ => false

/-- String coercion used by the template literal in the missing-parameter
error message.  The defaulting loop only ever displays a descriptor whose
`typeof` is not `'object'` (the guard in `handleDefaults`), so the
`obj`/`arr`/`null` branches are unreachable from the embedded code. -/
def jsDisplay : JSValue → String
  | .undefined => "undefined"
  | .null => "null"
  | .bool b => if b then "true" else "false"
  | .num n => toString n
  | .str s => s
  | .obj _ => "[object Object]"
  | .arr _ => ""

/-- `desc[Object.keys(desc)[0]]` from `handleDefaults` (line 139 of
`jsonrpc.js`): the value stored under the first enumerable key of the
descriptor.  On a plain object this is the first field's value, on an
array its first element, on an empty object or array `undefined`
(`keys[0]` is `undefined`), and on `null` it throws a `TypeError`
(`Object.keys(null)` throws).  It is only evaluated when the caller's
value at the position is falsy, and — because of the guard — only on
values whose `typeof` is `'object'`, or on truthy primitives where the
`||` short-circuits before reaching it. -/
def firstKeyValue : JSValue → Except String JSValue
  | .obj [] => Except.ok JSValue.undefined
  | .obj ((_, v) :: _) => Except.ok v
  | .arr [] => Except.ok JSValue.undefined
  | .arr (v :: _) => Except.ok v
  | .null => Except.error "TypeError: Cannot convert undefined or null to object"
  | .str s =>
    Except.ok (match s.data with
      | [] => JSValue.undefined
      | c :: _ => JSValue.str (String.mk [c]))
  | _ => Except.ok JSValue.undefined

/-- First-match association-list lookup, modelling JS own-property access
on plain objects.  Own properties shadow the `Object.prototype`-inherited
ones, so `handleDefaults` consults this first and falls back to
`objectProtoArity` (the inherited names the `in` operator also finds)
only when the key is not an own schema key. -/
def jsLookup {α : Type} : List (String × α) → String → Option α
  | [], _ => none
  | p :: t, k => if p.1 == k then some p.2 else jsLookup t k

/-- The property names the JS `in` operator finds on every plain object
through `Object.prototype`, mapped to the loop bound
`this.commands[method].length` that `handleDefaults` then uses: the
`length` (arity) of the inherited function stored there.  For the
accessor `__proto__` the read yields `Object.prototype` itself, whose
`length` is `undefined`, so the `i < length` loop runs zero times —
modelled as arity 0, which produces the same empty loop. -/
def objectProtoArity : String → Option Nat
  | "constructor" => some 1
  | "hasOwnProperty" => some 1
  | "isPrototypeOf" => some 1
  | "propertyIsEnumerable" => some 1
  | "toString" => some 0
  | "toLocaleString" => some 0
  | "valueOf" => some 0
  | "__defineGetter__" => some 2
  | "__defineSetter__" => some 2
  | "__lookupGetter__" => some 1
  | "__lookupSetter__" => some 1
  | "__proto__" => some 0
  | _ => none

-- ## JS string primitives
-- `String.prototype.trim`, `toLowerCase`, `toUpperCase`, `split` and
-- `startsWith`, implemented over the character list of the string.

/-- `String.prototype.trim`: strip leading and trailing whitespace. -/
def jsTrim (s : String) : String :=
  String.mk (((s.data.dropWhile Char.isWhitespace).reverse.dropWhile
    Char.isWhitespace).reverse)

/-- `String.prototype.toLowerCase` (ASCII range, as the client uses it on
RPC method names). -/
def jsToLower (s : String) : String :=
  String.mk (s.data.map Char.toLower)

/-- `String.prototype.toUpperCase` (ASCII range). -/
def jsToUpper (s : String) : String :=
  String.mk (s.data.map Char.toUpper)

/-- Accumulator loop for `jsSplitChar`. -/
def splitCharAux (sep : Char) : List Char → List Char → List String
  | [], acc => [String.mk acc.reverse]
  | c :: rest, acc =>
    if c = sep then String.mk acc.reverse :: splitCharAux sep rest []
    else splitCharAux sep rest (c :: acc)

/-- `String.prototype.split` with a one-character string separator:
every occurrence separates fields and empty fields are kept, so the
result is never empty (`"".split(sep)` is `[""]`). -/
def jsSplitChar (s : String) (sep : Char) : List String :=
  splitCharAux sep s.data []

/-- Accumulator loop for `jsSplitWs`: maximal whitespace-free runs. -/
def splitWsAux : List Char → List Char → List String
  | [], acc => if acc.isEmpty then [] else [String.mk acc.reverse]
  | c :: rest, acc =>
    if c.isWhitespace then
      if acc.isEmpty then splitWsAux rest []
      else String.mk acc.reverse :: splitWsAux rest []
    else splitWsAux rest (c :: acc)

/-- `String.prototype.split(/\s+/g)` as the resolver applies it: the
argument is always trimmed first, so the result is the list of maximal
whitespace-free runs (and `[""]` on the empty string, as in JS). -/
def jsSplitWs (s : String) : List String :=
  if s = "" then [""] else splitWsAux s.data []

/-- `String.prototype.startsWith`. -/
def jsStartsWith (s pat : String) : Bool :=
  pat.data.isPrefixOf s.data

-- ## Method casing (`METHOD_CASING`, `handleCasing`)

/-- `METHOD_CASING.DEFAULT` — don't change cases. -/
def METHOD_CASING_DEFAULT : Int := 0

/-- `METHOD_CASING.UPPER` — upper case methods. -/
def METHOD_CASING_UPPER : Int := 1

/-- `METHOD_CASING.LOWER` — lower case methods. -/
def METHOD_CASING_LOWER : Int := 2

/-- The default value of the constructor parameter `methodCasing` in
`JSONRPCClient`'s constructor: `METHOD_CASING.LOWER`. -/
def defaultMethodCasing : Int := METHOD_CASING_LOWER

/-- `JSONRPCClient.prototype.handleCasing`: apply the configured casing to
the method string; any casing value other than the three enumerated ones
returns the input unchanged. -/
def handleCasing (methodCasing : Int) (method : String) : String :=
  if methodCasing = METHOD_CASING_DEFAULT then method
  else if methodCasing = METHOD_CASING_UPPER then jsToUpper method
  else if methodCasing = METHOD_CASING_LOWER then jsToLower method
  else method

-- ## Parameter defaulting (`handleDefaults`)

/-- The missing-required-parameter error message of `handleDefaults`:
`Required parameter ${desc} not found for method ${method} at params[${i}]!` -/
def requiredMessage (d : JSValue) (method : String) (i : Nat) : String :=
  "Required parameter " ++ jsDisplay d ++ " not found for method " ++ method
    ++ " at params[" ++ toString i ++ "]!"

/-- The loop body of `handleDefaults` over the schema entry
`this.commands[method]` (one descriptor per parameter position).  At
position `i`: if the descriptor is not `typeof 'object'` and the caller's
value `params[i]` is falsy, throw the missing-parameter error; otherwise
push `params[i] || desc[Object.keys(desc)[0]]` — the caller's value when
truthy, the descriptor's first-key value otherwise. -/
def defaultsLoop (method : String) (params : List JSValue) :
    List JSValue → Nat → Except String (List JSValue)
  | [], _ => Except.ok []
  | d :: ds, i =>
    let p := params.getD i JSValue.undefined
    if !typeofIsObject d && !jsTruthy p then
      Except.error (requiredMessage d method i)
    else if jsTruthy p then
      (defaultsLoop method params ds (i + 1)).map (fun r => p :: r)
    else
      match firstKeyValue d with
      | Except.error e => Except.error e
      | Except.ok dv => (defaultsLoop method params ds (i + 1)).map (fun r => dv :: r)

/-- `JSONRPCClient.prototype.handleDefaults`: start from an empty output
array; when `method in this.commands` holds, run the defaulting loop over
`this.commands[method]`; otherwise return the empty array unchanged.
The `in` test finds own schema keys first (they shadow inherited ones)
but also the `Object.prototype` properties present on every plain object:
for such an inherited name, `this.commands[method]` is the inherited
function, whose `length` (arity) bounds the loop and whose every indexed
element `this.commands[method][i]` is `undefined` — so the loop behaves
exactly as arity-many `undefined` required-markers, modelled by
`List.replicate`. -/
def handleDefaults (commands : List (String × List JSValue)) (method : String)
    (params : List JSValue) : Except String (List JSValue) :=
  match jsLookup commands method with
  | some descs => defaultsLoop method params descs 0
  | none =>
    match objectProtoArity method with
    | some n => defaultsLoop method params (List.replicate n JSValue.undefined) 0
    | none => Except.ok []

-- ## JSON serialization (the `JSON.stringify` boundary)

/-- Lower-case hexadecimal digit. -/
def hexDigit (n : Nat) : Char :=
  if n < 10 then Char.ofNat (48 + n) else Char.ofNat (87 + n)

/-- Four lower-case hexadecimal digits, for `\uXXXX` escapes. -/
def hex4 (n : Nat) : String :=
  String.mk [hexDigit ((n / 4096) % 16), hexDigit ((n / 256) % 16),
             hexDigit ((n / 16) % 16), hexDigit (n % 16)]

/-- Escaping of one character inside a JSON string, as `JSON.stringify`
performs it: quote, backslash, the short control escapes, and `\uXXXX`
for the remaining control characters. -/
def jsonEscapeChar (c : Char) : String :=
  if c = '"' then "\\\""
  else if c = '\\' then "\\\\"
  else if c = '\n' then "\\n"
  else if c = '\t' then "\\t"
  else if c = '\r' then "\\r"
  else if c = Char.ofNat 8 then "\\b"
  else if c = Char.ofNat 12 then "\\f"
  else if c.toNat < 32 then "\\u" ++ hex4 c.toNat
  else String.singleton c

/-- Escape a whole string for inclusion in a JSON document. -/
def jsonEscape (s : String) : String :=
  String.join (s.toList.map jsonEscapeChar)

/-- A JSON string literal. -/
def jsonQuote (s : String) : String :=
  "\"" ++ jsonEscape s ++ "\""

mutual

/-- `JSON.stringify` on a `JSValue`.  `undefined` serializes as `null`
(its array-element behaviour; as an object-field value it is omitted by
`stringifyFields`, and the embedded code never stringifies a bare
`undefined` at top level). -/
def stringifyJSValue : JSValue → String
  | .undefined => "null"
  | .null => "null"
  | .bool b => if b then "true" else "false"
  | .num n => toString n
  | .str s => jsonQuote s
  | .obj fs => "\x7b" ++ String.intercalate "," (stringifyFields fs) ++ "\x7d"
  | .arr xs => "[" ++ String.intercalate "," (stringifyElems xs) ++ "]"

/-- Serialized `"key":value` members of an object; fields whose value is
`undefined` are omitted, as `JSON.stringify` omits them. -/
def stringifyFields : List (String × JSValue) → List String
  | [] => []
  | (k, v) :: rest =>
    match v with
    | .undefined => stringifyFields rest
    | _ => (jsonQuote k ++ ":" ++ stringifyJSValue v) :: stringifyFields rest

/-- Serialized elements of an array. -/
def stringifyElems : List JSValue → List String
  | [] => []
  | v :: rest => stringifyJSValue v :: stringifyElems rest

end

-- ## The wire request (`JSONRPCRequest`, `request`)

/-- `RPC_VERSION`, the fixed protocol-version literal. -/
def RPC_VERSION : String := "2.0"

/-- The `JSONRPCRequest` class: exactly the four own properties its
constructor assigns, in insertion order `id`, `method`, `params`,
`jsonrpc`.  The `uuid()` call is an external collaborator, so the fresh
id is an explicit parameter of the construction sites below. -/
structure JSONRPCRequest where
  id : String
  method : String
  params : List JSValue
  jsonrpc : String

/-- `JSON.stringify(new JSONRPCRequest(method, params))`: the object with
own properties `id`, `method`, `params`, `jsonrpc` in insertion order. -/
def stringifyRequest (r : JSONRPCRequest) : String :=
  stringifyJSValue (JSValue.obj
    [("id", JSValue.str r.id), ("method", JSValue.str r.method),
     ("params", JSValue.arr r.params), ("jsonrpc", JSValue.str r.jsonrpc)])

/-- The connection-options object handed to `request` (and owned by the
client / mutated by the connection resolver).  Header values are kept as
strings; the numeric `content-length` set by the source is rendered in
decimal.  `method` is the HTTP method field that `request` forces to
`POST`. -/
structure ConnOptions where
  protocol : Option String := none
  headers : List (String × String) := []
  method : Option String := none
  user : Option String := none
  pass : Option String := none
  auth : Option String := none
  port : Option String := none
deriving DecidableEq

/-- Own-property read on a headers object. -/
def getHeader : List (String × String) → String → Option String
  | [], _ => none
  | p :: t, k => if p.1 == k then some p.2 else getHeader t k

/-- Own-property write on a headers object: replace the entry if the key
exists, append it otherwise (JS object assignment). -/
def setHeader : List (String × String) → String → String → List (String × String)
  | [], k, v => [(k, v)]
  | p :: t, k, v => if p.1 == k then (k, v) :: t else p :: setHeader t k v

/-- JS truthiness of an optional string field (`options.user`,
`options.pass`): absent (`undefined`) and the empty string are falsy. -/
def jsTruthyStrOpt : Option String → Bool
  | none => false
  | some s => s != ""

/-- The setup phase of `request` in `jsonrpc.js` (lines 24–36): build the
`JSONRPCRequest` from the trimmed method and the params, stringify it,
copy the headers object and force `content-type: application/json` and a
`content-length` equal to the UTF-8 byte length of the body, force the
HTTP method to `POST`, and set `auth` to `user:pass` exactly when both
`options.user` and `options.pass` are truthy.  Returns the request
object, the updated options and the serialized body. -/
def requestBuild (method : String) (params : List JSValue) (options : ConnOptions)
    (freshId : String) : JSONRPCRequest × ConnOptions × String :=
  let req : JSONRPCRequest :=
    { id := freshId, method := jsTrim method, params := params, jsonrpc := RPC_VERSION }
  let data := stringifyRequest req
  let headers1 := setHeader options.headers "content-type" "application/json"
  let headers2 := setHeader headers1 "content-length" (toString data.utf8ByteSize)
  let o1 : ConnOptions := { options with headers := headers2, method := some "POST" }
  let o2 : ConnOptions :=
    if jsTruthyStrOpt o1.user && jsTruthyStrOpt o1.pass then
      { o1 with auth := some (o1.user.getD "" ++ ":" ++ o1.pass.getD "") }
    else o1
  (req, o2, data)

-- ## Response interpretation (`request`, lines 37–53)

/-- Outcome of the response handler.  Parsing (`JSON.parse`) is an
external boundary, so both resolution and rejection carry the raw body
verbatim; the synthetic non-JSON failure carries the message built from
the HTTP status code. -/
inductive ResponseOutcome where
  | resolveBody (body : String) : ResponseOutcome
  | rejectBody (body : String) : ResponseOutcome
  | rejectError (message : String) : ResponseOutcome
deriving DecidableEq

/-- The `end` handler of `request`: status 200 resolves with the parsed
body; otherwise a response whose `content-type` header is exactly
`application/json` rejects with the parsed body; otherwise reject with
`Request failed. HTTP <status>`. -/
def interpretResponse (statusCode : Nat) (contentType : Option String)
    (body : String) : ResponseOutcome :=
  if statusCode = 200 then ResponseOutcome.resolveBody body
  else if contentType = some "application/json" then ResponseOutcome.rejectBody body
  else ResponseOutcome.rejectError ("Request failed. HTTP " ++ toString statusCode)

-- ## The client's `call`

/-- The state of a `JSONRPCClient` that `call` reads: connection options,
command schema (as an ordered own-property list) and casing policy. -/
structure ClientConfig where
  connection : ConnOptions
  commands : List (String × List JSValue)
  methodCasing : Int

/-- `JSONRPCClient.prototype.call`: `request(this.handleCasing(method),
this.handleDefaults(method, params), this.connection)`.  JS evaluates the
arguments left to right; `handleCasing` is total on strings, so the
observable behaviour is: if `handleDefaults` throws, the error propagates
and `request` is never invoked (no transport exchange); otherwise the
transport builds and sends the wire request. -/
def clientCall (cfg : ClientConfig) (method : String) (params : List JSValue)
    (freshId : String) : Except String (JSONRPCRequest × ConnOptions × String) :=
  match handleDefaults cfg.commands method params with
  | Except.error e => Except.error e
  | Except.ok resolved =>
      Except.ok (requestBuild (handleCasing cfg.methodCasing method) resolved
        cfg.connection freshId)

-- ## The `commands` setter and its convenience bindings

/-- What the `_commands` backing slot of a `JSONRPCClient` holds.  It is
`undef` before the constructor's first assignment, a schema object after
a normal assignment, and — when an assigned schema contains the key
`"commands"` or `"_commands"` — one of the convenience binding functions
(the setter stores the function itself in the slot: assigning to
`this["commands"]` re-enters the prototype setter with the function as
value, and assigning to `this["_commands"]` overwrites the backing slot
directly).  `for...in` over `undef` or over a function enumerates no
keys. -/
inductive CommandsVal where
  | undef : CommandsVal
  | schema (entries : List (String × List JSValue)) : CommandsVal
  | funcVal (captured : String) : CommandsVal

/-- The keys `for (let command in this._commands)` enumerates. -/
def keysOfCommands : CommandsVal → List String
  | .undef => []
  | .schema l => l.map Prod.fst
  | .funcVal _ => []

/-- The observable state of a `JSONRPCClient` for the binding machinery:
`bound` is the ordered list of own convenience properties installed by
the setter.  Each name `k` in `bound` stands for the own property
`this[k] = function () { return this.call(k, arguments) }`.  The plain
data properties `connection` and `methodCasing` are carried along; the
corner where a schema key collides with one of those two data-property
names (the binding then also clobbers the data slot) is outside the
claims and not tracked beyond `bound`. -/
structure JSONRPCClientState where
  connection : ConnOptions
  commandsVal : CommandsVal
  methodCasing : Int
  bound : List String

/-- Own-property assignment of a binding: a second assignment to the same
name replaces the function but leaves the property set unchanged. -/
def insertName (k : String) (l : List String) : List String :=
  if l.contains k then l else l ++ [k]

/-- The second loop of the `commands` setter: `for (let command in
this._commands) { this[command] = function () { return this.call(command,
arguments) } }`, iterated over the keys of the newly assigned object.
Assigning to the key `"commands"` finds the accessor on
`JSONRPCClient.prototype` and re-enters the setter with the binding
function as value: that run deletes `this[command]` for every key of the
current `_commands` (the just-assigned schema), stores the function in
`_commands`, and binds nothing (a function enumerates no keys).
Assigning to the key `"_commands"` overwrites the backing slot with the
function directly.  Every other key becomes an ordinary own property. -/
def bindLoop (st : JSONRPCClientState) : List String → JSONRPCClientState
  | [] => st
  | k :: ks =>
    if k = "commands" then
      bindLoop { st with
        bound := st.bound.filter (fun b => !(keysOfCommands st.commandsVal).contains b),
        commandsVal := CommandsVal.funcVal k } ks
    else if k = "_commands" then
      bindLoop { st with commandsVal := CommandsVal.funcVal k } ks
    else
      bindLoop { st with bound := insertName k st.bound } ks

/-- `set commands (value)`: delete `this[command]` for every key of the
old `_commands`, store the new object, then run the binding loop over the
new object's keys. -/
def setCommands (st : JSONRPCClientState) (value : List (String × List JSValue)) :
    JSONRPCClientState :=
  let st1 := { st with
    bound := st.bound.filter (fun b => !(keysOfCommands st.commandsVal).contains b) }
  let st2 := { st1 with commandsVal := CommandsVal.schema value }
  bindLoop st2 (value.map Prod.fst)

/-- The `JSONRPCClient` constructor: assign `connection`, run the
`commands` setter on an as-yet-undefined backing slot, assign
`methodCasing`. -/
def mkClientState (connection : ConnOptions) (commands : List (String × List JSValue))
    (methodCasing : Int) : JSONRPCClientState :=
  setCommands
    { connection := connection, commandsVal := CommandsVal.undef,
      methodCasing := methodCasing, bound := [] } commands

-- ## The shared connection object and in-place mutation

/-- References into the store of live connection-options objects.  The
store makes the JS heap sharing explicit: the client and every in-flight
call hold the same reference, so a write through it is visible to all of
them. -/
abbrev Store := List (Nat × ConnOptions)

/-- Dereference. -/
def storeLookup : Store → Nat → Option ConnOptions
  | [], _ => none
  | p :: t, ref => if p.1 == ref then some p.2 else storeLookup t ref

/-- Overwrite the object a reference designates. -/
def storeUpdate : Store → Nat → ConnOptions → Store
  | [], _, _ => []
  | p :: t, ref, v =>
    if p.1 == ref then (p.1, v) :: t else p :: storeUpdate t ref v

/-- `request`'s setup phase acting on the caller's options object through
its reference: the same mutations as `requestBuild`, written back in
place, so every holder of the reference observes them. -/
def requestSendSt (method : String) (params : List JSValue) (ref : Nat)
    (store : Store) (freshId : String) :
    Except String (JSONRPCRequest × String) × Store :=
  match storeLookup store ref with
  | none => (Except.error "TypeError: options is not an object", store)
  | some opts =>
    let built := requestBuild method params opts freshId
    (Except.ok (built.1, built.2.2), storeUpdate store ref built.2.1)

-- ## Connection resolution (`multichain.js`)

/-- One entry of the data directory listing, with the `statSync(...)
.isDirectory()` bit. -/
structure FSEntry where
  name : String
  isDir : Bool
deriving DecidableEq

/-- The filesystem boundary the resolver reads: the OS-dependent
`CHAIN_PATH` constant, the directory listing of that path, and the flat
files by full path. -/
structure FSModel where
  chainPath : String
  chainDir : List FSEntry
  files : List (String × String)

/-- `Client.getChainNames`: the directory entries of `CHAIN_PATH` that
are directories, are not hidden (no leading dot) and are not the reserved
daemon directory `multichaind`. -/
def getChainNames (fs : FSModel) : List String :=
  (fs.chainDir.filter
    (fun e => e.isDir && !jsStartsWith e.name "." && e.name != "multichaind")).map
    FSEntry.name

/-- `fs.readFileSync(path, 'utf8')`: the file contents, or a thrown
`ENOENT` error when the path is absent. -/
def readFile (fs : FSModel) (path : String) : Except String String :=
  match jsLookup fs.files path with
  | some c => Except.ok c
  | none => Except.error ("ENOENT: no such file " ++ path)

/-- `Client.getConnectionByName`, state-passing over the store, with the
list of file paths read returned alongside.  For a name that is among the
enumerated chains it reads `<CHAIN_PATH>/<name>/multichain.conf`, writes
`connection.user` and `connection.pass` from the `=`-split of its first
two trimmed lines, reads `<CHAIN_PATH>/<name>/params.dat`, finds the line
starting with `default-rpc-port`, and writes `connection.port` from the
first whitespace-delimited token after the `=`; each write is an in-place
mutation of the caller's object, performed in source order, so a later
failure leaves the earlier writes visible.  For any other name it throws
`Invalid Chain!` at once.  The `TypeError` arms model the JS crashes on a
one-line config file, a missing `default-rpc-port` line, or a port line
without `=`. -/
def getConnectionByNameSt (fs : FSModel) (name : String) (ref : Nat)
    (store : Store) : Except String Nat × Store × List String :=
  if (getChainNames fs).contains name then
    let confPath := fs.chainPath ++ "/" ++ name ++ "/multichain.conf"
    match readFile fs confPath with
    | Except.error e => (Except.error e, store, [confPath])
    | Except.ok conf =>
      let config := (jsSplitChar (jsTrim conf) '\n').map jsTrim
      let userVal := (jsSplitChar (config.getD 0 "") '=').get? 1
      let store1 := match storeLookup store ref with
        | some c => storeUpdate store ref { c with user := userVal }
        | none => store
      match config.get? 1 with
      | none =>
          (Except.error "TypeError: Cannot read properties of undefined", store1,
            [confPath])
      | some line2 =>
        let passVal := (jsSplitChar line2 '=').get? 1
        let store2 := match storeLookup store1 ref with
          | some c => storeUpdate store1 ref { c with pass := passVal }
          | none => store1
        let paramsPath := fs.chainPath ++ "/" ++ name ++ "/params.dat"
        match readFile fs paramsPath with
        | Except.error e => (Except.error e, store2, [confPath, paramsPath])
        | Except.ok pd =>
          match ((jsSplitChar (jsTrim pd) '\n').map jsTrim).find?
              (fun l => jsStartsWith l "default-rpc-port") with
          | none =>
              (Except.error "TypeError: Cannot read properties of undefined", store2,
                [confPath, paramsPath])
          | some portLine =>
            match (jsSplitChar portLine '=').get? 1 with
            | none =>
                (Except.error "TypeError: Cannot read properties of undefined", store2,
                  [confPath, paramsPath])
            | some afterEq =>
              let portVal := (jsSplitWs (jsTrim afterEq)).getD 0 ""
              let store3 := match storeLookup store2 ref with
                | some c => storeUpdate store2 ref { c with port := some portVal }
                | none => store2
              (Except.ok ref, store3, [confPath, paramsPath])
  else (Except.error "Invalid Chain!", store, [])

-- # Helper lemmas

lemma except_map_ok {α β : Type} (f : α → β) (e : Except String α) (r : β)
    (h : e.map f = Except.ok r) : ∃ a, e = Except.ok a ∧ r = f a := by
  cases e with
  | error err => simp [Except.map] at h
  | ok a => exact ⟨a, rfl, by simpa [Except.map] using h.symm⟩

lemma except_map_error {α β : Type} (f : α → β) (e : Except String α) (msg : String)
    (h : e = Except.error msg) : e.map f = Except.error msg := by
  rw [h]; rfl

lemma getHeader_setHeader_self (hs : List (String × String)) (k v : String) :
    getHeader (setHeader hs k v) k = some v := by
  induction hs with
  | nil => simp [setHeader, getHeader]
  | cons p t ih =>
    by_cases hp : (p.1 == k) = true
    · simp [setHeader, getHeader, hp]
    · have hp' : (p.1 == k) = false := by simpa using hp
      simp [setHeader, getHeader, hp', ih]

lemma getHeader_setHeader_ne (hs : List (String × String)) (k v k' : String)
    (hne : (k == k') = false) :
    getHeader (setHeader hs k v) k' = getHeader hs k' := by
  induction hs with
  | nil => simp [setHeader, getHeader, hne]
  | cons p t ih =>
    by_cases hp : (p.1 == k) = true
    · have hp' : p.1 = k := by simpa using hp
      simp [setHeader, getHeader, hp, hp', hne]
    · have hp' : (p.1 == k) = false := by simpa using hp
      simp [setHeader, getHeader, hp', ih]

lemma storeLookup_storeUpdate_self (store : Store) (ref : Nat) (v c : ConnOptions)
    (h : storeLookup store ref = some c) :
    storeLookup (storeUpdate store ref v) ref = some v := by
  induction store with
  | nil => simp [storeLookup] at h
  | cons p t ih =>
    by_cases hp : (p.1 == ref) = true
    · simp [storeUpdate, storeLookup, hp]
    · have hp' : (p.1 == ref) = false := by simpa using hp
      simp only [storeLookup, hp', if_false, Bool.false_eq_true] at h
      simp [storeUpdate, storeLookup, hp', ih h]

lemma mem_insertName (a k : String) (l : List String) :
    a ∈ insertName k l ↔ a ∈ l ∨ a = k := by
  cases h : l.contains k with
  | true =>
    have hk : k ∈ l := by simpa using h
    simp only [insertName, h, if_true]
    constructor
    · exact fun ha => Or.inl ha
    · rintro (ha | rfl)
      · exact ha
      · exact hk
  | false =>
    have hk : k ∉ l := by simpa using h
    simp [insertName, h, hk, List.mem_append]

lemma bindLoop_bound_mem (ks : List String) :
    ∀ (st : JSONRPCClientState), "commands" ∉ ks → "_commands" ∉ ks →
      ∀ a, a ∈ (bindLoop st ks).bound ↔ a ∈ st.bound ∨ a ∈ ks := by
  induction ks with
  | nil => intro st h1 h2 a; simp [bindLoop]
  | cons k t ih =>
    intro st h1 h2 a
    have hk1 : ¬ k = "commands" := fun h => h1 (h ▸ List.mem_cons_self k t)
    have hk2 : ¬ k = "_commands" := fun h => h2 (h ▸ List.mem_cons_self k t)
    have ht1 : "commands" ∉ t := fun h => h1 (List.mem_cons_of_mem k h)
    have ht2 : "_commands" ∉ t := fun h => h2 (List.mem_cons_of_mem k h)
    rw [bindLoop, if_neg hk1, if_neg hk2, ih _ ht1 ht2 a]
    simp only [mem_insertName, List.mem_cons]
    tauto

lemma bindLoop_commandsVal (ks : List String) :
    ∀ (st : JSONRPCClientState), "commands" ∉ ks → "_commands" ∉ ks →
      (bindLoop st ks).commandsVal = st.commandsVal := by
  induction ks with
  | nil => intro st h1 h2; rfl
  | cons k t ih =>
    intro st h1 h2
    have hk1 : ¬ k = "commands" := fun h => h1 (h ▸ List.mem_cons_self k t)
    have hk2 : ¬ k = "_commands" := fun h => h2 (h ▸ List.mem_cons_self k t)
    have ht1 : "commands" ∉ t := fun h => h1 (List.mem_cons_of_mem k h)
    have ht2 : "_commands" ∉ t := fun h => h2 (List.mem_cons_of_mem k h)
    rw [bindLoop, if_neg hk1, if_neg hk2, ih _ ht1 ht2]

lemma defaultsLoop_ok_get (method : String) (params : List JSValue) :
    ∀ (descs : List JSValue) (i0 : Nat) (r : List JSValue),
      defaultsLoop method params descs i0 = Except.ok r →
      ∀ (j : Nat) (d : JSValue), descs.get? j = some d →
        (jsTruthy (params.getD (i0 + j) JSValue.undefined) = true
          ∧ r.get? j = some (params.getD (i0 + j) JSValue.undefined))
        ∨ (jsTruthy (params.getD (i0 + j) JSValue.undefined) = false
          ∧ ∃ dv, firstKeyValue d = Except.ok dv ∧ r.get? j = some dv) := by
  intro descs
  induction descs with
  | nil => intro i0 r h j d hj; simp at hj
  | cons d0 ds ih =>
    intro i0 r h j d hj
    simp only [defaultsLoop] at h
    split at h
    · exact absurd h (by simp)
    · split at h
      · rename_i hg ht
        obtain ⟨r', hr', hrr⟩ := except_map_ok _ _ _ h
        subst hrr
        cases j with
        | zero =>
          left
          refine ⟨?_, ?_⟩ <;> rw [Nat.add_zero]
          · exact ht
          · rfl
        | succ n =>
          simp only [List.get?_cons_succ] at hj
          have harith : i0 + 1 + n = i0 + (n + 1) := by omega
          have := ih (i0 + 1) r' hr' n d hj
          rw [harith] at this
          simpa only [List.get?_cons_succ] using this
      · rename_i hg ht
        have hf : jsTruthy (params.getD i0 JSValue.undefined) = false := by
          simpa using ht
        split at h
        · exact absurd h (by simp)
        · rename_i dv heq
          obtain ⟨r', hr', hrr⟩ := except_map_ok _ _ _ h
          subst hrr
          cases j with
          | zero =>
            right
            simp only [List.get?_cons_zero, Option.some.injEq] at hj
            subst hj
            exact ⟨by simpa using hf, dv, heq, by simp⟩
          | succ n =>
            simp only [List.get?_cons_succ] at hj
            have harith : i0 + 1 + n = i0 + (n + 1) := by omega
            have := ih (i0 + 1) r' hr' n d hj
            rw [harith] at this
            simpa only [List.get?_cons_succ] using this

lemma defaultsLoop_required_error (method : String) (params : List JSValue) :
    ∀ (descs : List JSValue) (i0 i : Nat) (d : JSValue),
      descs.get? i = some d →
      typeofIsObject d = false →
      jsTruthy (params.getD (i0 + i) JSValue.undefined) = false →
      (∀ j, j < i → descs.get? j = some JSValue.null →
        jsTruthy (params.getD (i0 + j) JSValue.undefined) = true) →
      ∃ j d2, j ≤ i ∧ descs.get? j = some d2 ∧ typeofIsObject d2 = false ∧
        jsTruthy (params.getD (i0 + j) JSValue.undefined) = false ∧
        defaultsLoop method params descs i0
          = Except.error (requiredMessage d2 method (i0 + j)) := by
  intro descs
  induction descs with
  | nil => intro i0 i d hd _ _ _; simp at hd
  | cons d0 ds ih =>
    intro i0 i d hd hro hfal hnull
    by_cases hg : (!typeofIsObject d0 && !jsTruthy (params.getD i0 JSValue.undefined)) = true
    · obtain ⟨h1, h2⟩ : typeofIsObject d0 = false
          ∧ jsTruthy (params.getD i0 JSValue.undefined) = false := by
        simpa [Bool.and_eq_true, Bool.not_eq_true'] using hg
      refine ⟨0, d0, Nat.zero_le i, rfl, h1, ?_, ?_⟩
      · rw [Nat.add_zero]; exact h2
      · rw [Nat.add_zero]
        simp only [defaultsLoop]
        rw [if_pos hg]
    · cases i with
      | zero =>
        exfalso
        simp only [List.get?_cons_zero, Option.some.injEq] at hd
        subst hd
        rw [Nat.add_zero] at hfal
        exact hg (by simp only [hro, hfal]; rfl)
      | succ n =>
        simp only [List.get?_cons_succ] at hd
        have hnull2 : ∀ j, j < n → ds.get? j = some JSValue.null →
            jsTruthy (params.getD (i0 + 1 + j) JSValue.undefined) = true := by
          intro j hjn hds
          have := hnull (j + 1) (by omega) (by simpa using hds)
          rwa [show i0 + (j + 1) = i0 + 1 + j by omega] at this
        have hfal2 : jsTruthy (params.getD (i0 + 1 + n) JSValue.undefined) = false := by
          rwa [show i0 + (n + 1) = i0 + 1 + n by omega] at hfal
        obtain ⟨j, d2, hji, hds, hro2, hfal3, herr⟩ :=
          ih (i0 + 1) n d hd hro hfal2 hnull2
        refine ⟨j + 1, d2, by omega, by simpa using hds, hro2, ?_, ?_⟩
        · rwa [show i0 + (j + 1) = i0 + 1 + j by omega]
        · simp only [defaultsLoop]
          rw [if_neg hg]
          by_cases ht : jsTruthy (params.getD i0 JSValue.undefined) = true
          · rw [if_pos ht, herr]
            simp [Except.map, show i0 + 1 + j = i0 + (j + 1) by omega]
          · have htf : jsTruthy (params.getD i0 JSValue.undefined) = false := by
              simpa using ht
            rw [if_neg ht]
            have hd0null : ¬ d0 = JSValue.null := by
              intro hdn
              have := hnull 0 (by omega) (by simp [hdn])
              rw [Nat.add_zero] at this
              rw [this] at htf
              exact absurd htf (by simp)
            obtain ⟨dv, hdv⟩ : ∃ dv, firstKeyValue d0 = Except.ok dv := by
              cases d0 with
              | null => exact absurd rfl hd0null
              | obj fs => cases fs with
                | nil => exact ⟨_, rfl⟩
                | cons f ft => exact ⟨_, rfl⟩
              | arr xs => cases xs with
                | nil => exact ⟨_, rfl⟩
                | cons x xt => exact ⟨_, rfl⟩
              | undefined => exact ⟨_, rfl⟩
              | bool b => exact ⟨_, rfl⟩
              | num n2 => exact ⟨_, rfl⟩
              | str s => exact ⟨_, rfl⟩
            rw [hdv, herr]
            simp [Except.map, show i0 + 1 + j = i0 + (j + 1) by omega]

lemma requestBuild_method_POST (m : String) (ps : List JSValue) (o : ConnOptions)
    (f : String) : (requestBuild m ps o f).2.1.method = some "POST" := by
  unfold requestBuild
  by_cases hb : (jsTruthyStrOpt o.user && jsTruthyStrOpt o.pass) = true
  · simp [hb]
  · have hb2 : (jsTruthyStrOpt o.user && jsTruthyStrOpt o.pass) = false := by
      simpa using hb
    simp [hb2]

lemma requestBuild_contentType (m : String) (ps : List JSValue) (o : ConnOptions)
    (f : String) :
    getHeader (requestBuild m ps o f).2.1.headers "content-type"
      = some "application/json" := by
  have hne : (("content-length" : String) == "content-type") = false := by decide
  unfold requestBuild
  by_cases hb : (jsTruthyStrOpt o.user && jsTruthyStrOpt o.pass) = true
  · simp [hb, getHeader_setHeader_self, getHeader_setHeader_ne _ _ _ _ hne]
  · have hb2 : (jsTruthyStrOpt o.user && jsTruthyStrOpt o.pass) = false := by
      simpa using hb
    simp [hb2, getHeader_setHeader_self, getHeader_setHeader_ne _ _ _ _ hne]

-- # Claim theorems

/-- C1, counterexample.  The claim says a method absent from the command
schema passes the caller's params through unchanged.  It is false at the
concrete input: with an empty schema, `call("m", [1])` delegates to the
transport with the empty params array — `handleDefaults` initializes its
output to `[]` and only fills it for methods present in the schema — so
the delegated sequence has length 0, not the caller's `[1]`. -/
theorem c1_passthrough_counterexample :
    clientCall ⟨{}, [], METHOD_CASING_LOWER⟩ "m" [JSValue.num 1] "id0"
      = Except.ok (requestBuild "m" [] ({} : ConnOptions) "id0")
    ∧ (requestBuild "m" [] ({} : ConnOptions) "id0").1.params ≠ [JSValue.num 1] := by
  refine ⟨by rfl, ?_⟩
  intro h
  simp [requestBuild] at h

/-- C1, amended.  For every method name that is not an own key of the
client's command schema and not one of the `Object.prototype` property
names that the JS `in` operator finds on every plain object
(`constructor`, `hasOwnProperty`, `toString`, ...), `call(method,
params)` delegates to the transport with the empty params sequence: the
caller's params are discarded (pass-through coincides only when the
caller's params are themselves empty).  For an inherited name the lookup
instead hits the inherited function and the loop treats its arity-many
positions as `undefined` required-markers: falsy values throw, truthy
ones pass through. -/
theorem c1_unknown_method_empty_params (cfg : ClientConfig) (method : String)
    (params : List JSValue) (freshId : String)
    (habs : jsLookup cfg.commands method = none)
    (hproto : objectProtoArity method = none) :
    handleDefaults cfg.commands method params = Except.ok []
    ∧ clientCall cfg method params freshId
      = Except.ok (requestBuild (handleCasing cfg.methodCasing method) []
          cfg.connection freshId) := by
  have h : handleDefaults cfg.commands method params = Except.ok [] := by
    unfold handleDefaults
    rw [habs, hproto]
  exact ⟨h, by simp [clientCall, h]⟩

/-- Witness for C1's amended theorem at a concrete unknown method. -/
theorem c1_unknown_method_empty_params_witness :
    clientCall ⟨{}, [], METHOD_CASING_LOWER⟩ "nope" [JSValue.num 2] "id2"
      = Except.ok (requestBuild (handleCasing METHOD_CASING_LOWER "nope") []
          ({} : ConnOptions) "id2") :=
  (c1_unknown_method_empty_params ⟨{}, [], METHOD_CASING_LOWER⟩ "nope"
    [JSValue.num 2] "id2" rfl rfl).2

/-- C2: for every method present in the command schema and every position
whose descriptor is a single-entry record, a falsy caller value at that
position (omitted, `0`, `false`, `""`) is replaced in the delegated
params by the record's default value, and a truthy caller value is used
unchanged; the resolved sequence is what `call` hands to the transport. -/
theorem c2_default_substitution (cfg : ClientConfig) (method : String)
    (params : List JSValue) (freshId : String) (descs : List JSValue)
    (i : Nat) (k : String) (v : JSValue) (r : List JSValue)
    (hlk : jsLookup cfg.commands method = some descs)
    (hdesc : descs.get? i = some (JSValue.obj [(k, v)]))
    (hok : handleDefaults cfg.commands method params = Except.ok r) :
    r.get? i = some (if jsTruthy (params.getD i JSValue.undefined) = true
                     then params.getD i JSValue.undefined else v)
    ∧ clientCall cfg method params freshId
      = Except.ok (requestBuild (handleCasing cfg.methodCasing method) r
          cfg.connection freshId) := by
  have hl : defaultsLoop method params descs 0 = Except.ok r := by
    unfold handleDefaults at hok
    rw [hlk] at hok
    exact hok
  have h := defaultsLoop_ok_get method params descs 0 r hl i _ hdesc
  simp only [Nat.zero_add] at h
  have hcall : clientCall cfg method params freshId
      = Except.ok (requestBuild (handleCasing cfg.methodCasing method) r
          cfg.connection freshId) := by
    simp [clientCall, hok]
  rcases h with ⟨ht, hr⟩ | ⟨hf, dv, hdv, hr⟩
  · rw [if_pos ht]
    exact ⟨hr, hcall⟩
  · have hv : (Except.ok v : Except String JSValue) = Except.ok dv := hdv
    have hveq : v = dv := by simpa using hv
    rw [if_neg (by rw [hf]; simp), hveq]
    exact ⟨hr, hcall⟩

/-- Witness for C2 at the concrete schema `{m: [{n: 7}]}` with the
parameter omitted: the delegated `params[0]` is the default `7`. -/
theorem c2_default_substitution_witness :
    ([JSValue.num 7] : List JSValue).get? 0
      = some (if jsTruthy (([] : List JSValue).getD 0 JSValue.undefined) = true
              then ([] : List JSValue).getD 0 JSValue.undefined else JSValue.num 7) :=
  (c2_default_substitution ⟨{}, [("m", [JSValue.obj [("n", JSValue.num 7)]])],
    METHOD_CASING_LOWER⟩ "m" [] "idw2" [JSValue.obj [("n", JSValue.num 7)]] 0 "n"
    (JSValue.num 7) [JSValue.num 7] rfl rfl rfl).1

/-- C3, counterexample.  The claim calls every non-record descriptor a
required-marker.  An array descriptor is not a record, yet — because JS
`typeof [5] === 'object'` — the code does not treat it as required: with
schema `{m: [[5]]}` and the parameter omitted, no missing-parameter error
is raised and the transport is invoked with params `[5]` (the array's
first element substituted as a default). -/
theorem c3_array_descriptor_counterexample :
    handleDefaults [("m", [JSValue.arr [JSValue.num 5]])] "m" []
      = Except.ok [JSValue.num 5]
    ∧ typeofIsObject (JSValue.arr [JSValue.num 5]) = true
    ∧ clientCall ⟨{}, [("m", [JSValue.arr [JSValue.num 5]])], METHOD_CASING_LOWER⟩
        "m" [] "id3"
      = Except.ok (requestBuild "m" [JSValue.num 5] ({} : ConnOptions) "id3") :=
  ⟨rfl, rfl, rfl⟩

/-- C3, amended.  For every method present in the command schema and
every position `i` whose descriptor is a required-marker in the sense the
code tests — any value whose JS `typeof` is not `'object'` (strings,
numbers, booleans, `undefined`); `null` and arrays, though non-records,
are not required-markers — if the caller's value at `i` is falsy (and no
earlier `null` descriptor with a falsy value aborts defaulting with a
`TypeError` first), then `call` fails with the missing-parameter error
naming the method and the first such position `j ≤ i`, and no transport
invocation occurs (the error propagates before `request` is entered). -/
theorem c3_missing_required_error (cfg : ClientConfig) (method : String)
    (params : List JSValue) (freshId : String) (descs : List JSValue)
    (i : Nat) (d : JSValue)
    (hlk : jsLookup cfg.commands method = some descs)
    (hdesc : descs.get? i = some d)
    (hro : typeofIsObject d = false)
    (hfal : jsTruthy (params.getD i JSValue.undefined) = false)
    (hnull : ∀ j, j < i → descs.get? j = some JSValue.null →
      jsTruthy (params.getD j JSValue.undefined) = true) :
    ∃ j d2, j ≤ i ∧ descs.get? j = some d2 ∧ typeofIsObject d2 = false
      ∧ jsTruthy (params.getD j JSValue.undefined) = false
      ∧ handleDefaults cfg.commands method params
          = Except.error (requiredMessage d2 method j)
      ∧ clientCall cfg method params freshId
          = Except.error (requiredMessage d2 method j) := by
  have h0 := defaultsLoop_required_error method params descs 0 i d hdesc hro
    (by rw [Nat.zero_add]; exact hfal)
    (by intro j hj hds; rw [Nat.zero_add]; exact hnull j hj hds)
  obtain ⟨j, d2, hji, hds, hro2, hfal2, herr⟩ := h0
  simp only [Nat.zero_add] at hfal2 herr
  have hhd : handleDefaults cfg.commands method params
      = Except.error (requiredMessage d2 method j) := by
    unfold handleDefaults
    rw [hlk]
    exact herr
  exact ⟨j, d2, hji, hds, hro2, hfal2, hhd, by simp [clientCall, hhd]⟩

/-- Witness for C3 at the concrete schema `{m: ["p"]}` with the parameter
omitted: the call fails with the missing-parameter error and no request
is built. -/
theorem c3_missing_required_error_witness :
    ∃ j d2, j ≤ 0 ∧ ([JSValue.str "p"] : List JSValue).get? j = some d2
      ∧ typeofIsObject d2 = false
      ∧ jsTruthy (([] : List JSValue).getD j JSValue.undefined) = false
      ∧ handleDefaults [("m", [JSValue.str "p"])] "m" []
          = Except.error (requiredMessage d2 "m" j)
      ∧ clientCall ⟨{}, [("m", [JSValue.str "p"])], METHOD_CASING_LOWER⟩ "m" [] "idw3"
          = Except.error (requiredMessage d2 "m" j) :=
  c3_missing_required_error ⟨{}, [("m", [JSValue.str "p"])], METHOD_CASING_LOWER⟩
    "m" [] "idw3" [JSValue.str "p"] 0 (JSValue.str "p") rfl rfl rfl rfl
    (fun j hj _ => absurd hj (Nat.not_lt_zero j))

/-- C4: the transport's response interpretation is a three-way
discrimination — status 200 resolves with the (parsed) body verbatim,
whatever it contains; a non-200 status whose `content-type` header is the
JSON one rejects with the (parsed) body; any other non-200 response
rejects with the synthetic error carrying the HTTP status code. -/
theorem c4_response_discrimination (s : Nat) (ct : Option String) (b : String) :
    (s = 200 → interpretResponse s ct b = ResponseOutcome.resolveBody b)
    ∧ (s ≠ 200 → ct = some "application/json" →
        interpretResponse s ct b = ResponseOutcome.rejectBody b)
    ∧ (s ≠ 200 → ct ≠ some "application/json" →
        interpretResponse s ct b
          = ResponseOutcome.rejectError ("Request failed. HTTP " ++ toString s)) := by
  refine ⟨fun h => ?_, fun h hc => ?_, fun h hc => ?_⟩
  · simp [interpretResponse, h]
  · simp [interpretResponse, h, hc]
  · simp [interpretResponse, h, hc]

/-- Witness for C4 at the three concrete response shapes of the spec's
test list: a 200 with a JSON-RPC error field inside, a 500 with a JSON
body, and a 500 with a plain-text body. -/
theorem c4_response_discrimination_witness :
    interpretResponse 200 (some "application/json") "body-with-error-field"
      = ResponseOutcome.resolveBody "body-with-error-field"
    ∧ interpretResponse 500 (some "application/json") "boom"
      = ResponseOutcome.rejectBody "boom"
    ∧ interpretResponse 500 (some "text/plain") "oops"
      = ResponseOutcome.rejectError "Request failed. HTTP 500" :=
  ⟨(c4_response_discrimination 200 (some "application/json") "body-with-error-field").1
      rfl,
   (c4_response_discrimination 500 (some "application/json") "boom").2.1
      (by decide) rfl,
   (c4_response_discrimination 500 (some "text/plain") "oops").2.2
      (by decide) (by decide)⟩

/-- C5, counterexample.  The claim says a schema key colliding with a
reserved Client property such as `call` surfaces an error.  The setter
has no error path at all: assigning `{call: []}` silently installs the
convenience binding `this.call = function () { return this.call("call",
arguments) }` as an own property, shadowing the prototype's `call`. -/
theorem c5_reserved_key_counterexample :
    (setCommands (mkClientState {} [] METHOD_CASING_LOWER) [("call", [])]).bound
      = ["call"] := rfl

/-- C5, amended.  Assigning a schema containing the key `call` (or any
other key that is a plain data or prototype-method name — everything
except the accessor `commands` and its backing slot `_commands`) silently
installs a convenience binding under that name, overwriting the Client
internal; no error is surfaced. -/
theorem c5_reserved_key_silently_bound (st : JSONRPCClientState)
    (value : List (String × List JSValue))
    (hcall : "call" ∈ value.map Prod.fst)
    (h1 : "commands" ∉ value.map Prod.fst)
    (h2 : "_commands" ∉ value.map Prod.fst) :
    "call" ∈ (setCommands st value).bound := by
  unfold setCommands
  rw [bindLoop_bound_mem _ _ h1 h2]
  exact Or.inr hcall

/-- Witness for C5's amended theorem at the concrete schema
`{call: []}`. -/
theorem c5_reserved_key_silently_bound_witness :
    "call" ∈ (setCommands (mkClientState {} [("getinfo", [])] METHOD_CASING_LOWER)
      [("call", []), ("getinfo", [])]).bound :=
  c5_reserved_key_silently_bound
    (mkClientState {} [("getinfo", [])] METHOD_CASING_LOWER)
    [("call", []), ("getinfo", [])] (by decide) (by decide) (by decide)

/-- C6, counterexample.  The claim says that after every schema
assignment the bound convenience methods correspond 1:1 with the new
schema's keys.  Assigning `{foo: [], commands: []}` to a fresh client
leaves NO bindings at all: processing the key `"commands"` re-enters the
prototype setter, whose delete-loop removes the just-installed `foo`
binding and which then stores the binding function itself in the
`_commands` slot — so the schema key `foo` has no binding and the current
schema is not even the assigned object any more. -/
theorem c6_binding_correspondence_counterexample :
    (setCommands (mkClientState {} [] METHOD_CASING_LOWER)
        [("foo", []), ("commands", [])]).bound = []
    ∧ (setCommands (mkClientState {} [] METHOD_CASING_LOWER)
        [("foo", []), ("commands", [])]).commandsVal
      = CommandsVal.funcVal "commands" :=
  ⟨rfl, rfl⟩

/-- C6, amended.  For every assignment of a schema none of whose keys is
the reserved accessor name `commands` or its backing-slot name
`_commands`, to a client whose bound convenience methods all correspond
to keys of its current schema, the resulting bound set is in 1:1
correspondence with the keys of the new schema — each new key gets a
binding forwarding to `call`, no stale binding survives, and the stored
schema is the assigned object. -/
theorem c6_binding_correspondence (st : JSONRPCClientState)
    (value : List (String × List JSValue))
    (h1 : "commands" ∉ value.map Prod.fst)
    (h2 : "_commands" ∉ value.map Prod.fst)
    (hwf : ∀ b ∈ st.bound, b ∈ keysOfCommands st.commandsVal) :
    (∀ k, k ∈ (setCommands st value).bound ↔ k ∈ value.map Prod.fst)
    ∧ (setCommands st value).commandsVal = CommandsVal.schema value := by
  unfold setCommands
  have hfilter : st.bound.filter
      (fun b => !(keysOfCommands st.commandsVal).contains b) = [] := by
    rw [List.filter_eq_nil_iff]
    intro b hb
    simp [hwf b hb]
  constructor
  · intro k
    rw [bindLoop_bound_mem _ _ h1 h2]
    constructor
    · rintro (hin | hin)
      · exfalso
        have hin2 : k ∈ st.bound.filter
            (fun b => !(keysOfCommands st.commandsVal).contains b) := hin
        rw [hfilter] at hin2
        simp at hin2
      · exact hin
    · exact fun hin => Or.inr hin
  · rw [bindLoop_commandsVal _ _ h1 h2]

/-- Witness for C6's amended theorem: re-assigning `{a: []}` to `{b: []}`
leaves no binding for `a` and installs one for `b`. -/
theorem c6_binding_correspondence_witness :
    "b" ∈ (setCommands (mkClientState {} [("a", [])] METHOD_CASING_LOWER)
        [("b", [])]).bound
    ∧ ¬ "a" ∈ (setCommands (mkClientState {} [("a", [])] METHOD_CASING_LOWER)
        [("b", [])]).bound :=
  ⟨((c6_binding_correspondence (mkClientState {} [("a", [])] METHOD_CASING_LOWER)
      [("b", [])] (by decide) (by decide) (by decide)).1 "b").mpr (by decide),
   fun h =>
    absurd (((c6_binding_correspondence
      (mkClientState {} [("a", [])] METHOD_CASING_LOWER)
      [("b", [])] (by decide) (by decide) (by decide)).1 "a").mp h) (by decide)⟩

/-- C7: the casing function is pure and total — policy LOWER (the
constructor default) lowercases the method, UPPER uppercases it, DEFAULT
returns it unchanged, and any other policy value falls back to returning
it unchanged (no throw is possible: the function is total). -/
theorem c7_casing_pure_total :
    (∀ m, handleCasing METHOD_CASING_LOWER m = jsToLower m)
    ∧ (∀ m, handleCasing METHOD_CASING_UPPER m = jsToUpper m)
    ∧ (∀ m, handleCasing METHOD_CASING_DEFAULT m = m)
    ∧ (∀ mc m, mc ≠ METHOD_CASING_DEFAULT → mc ≠ METHOD_CASING_UPPER →
        mc ≠ METHOD_CASING_LOWER → handleCasing mc m = m)
    ∧ defaultMethodCasing = METHOD_CASING_LOWER := by
  refine ⟨fun m => ?_, fun m => ?_, fun m => ?_, fun mc m h0 h1 h2 => ?_, rfl⟩
  · simp [handleCasing, METHOD_CASING_LOWER, METHOD_CASING_UPPER,
      METHOD_CASING_DEFAULT]
  · simp [handleCasing, METHOD_CASING_LOWER, METHOD_CASING_UPPER,
      METHOD_CASING_DEFAULT]
  · simp [handleCasing, METHOD_CASING_DEFAULT]
  · unfold METHOD_CASING_DEFAULT at h0
    unfold METHOD_CASING_UPPER at h1
    unfold METHOD_CASING_LOWER at h2
    unfold handleCasing METHOD_CASING_DEFAULT METHOD_CASING_UPPER
      METHOD_CASING_LOWER
    rw [if_neg h0, if_neg h1, if_neg h2]

/-- Witness for C7's unknown-policy clause at the concrete policy `99`:
the method string comes back unchanged. -/
theorem c7_casing_pure_total_witness : handleCasing 99 "Foo" = "Foo" :=
  c7_casing_pure_total.2.2.2.1 99 "Foo" (by decide) (by decide) (by decide)

/-- C8, counterexample.  Two points of the claim fail on the code.  The
wire `method` is not "the given method string": `request` trims it, so
`" Foo"` goes on the wire as `"Foo"`.  And basic auth is not set
"exactly when both user and pass are present": the code tests JS
truthiness (`options.user && options.pass`), so a present-but-empty
`user: ""` with a non-empty `pass` yields no auth credential. -/
theorem c8_wire_request_counterexample :
    (requestBuild " Foo" [] { user := some "", pass := some "x" } "id1").1.method
      = "Foo"
    ∧ " Foo" ≠ "Foo"
    ∧ ({ user := some "", pass := some "x" } : ConnOptions).user.isSome = true
    ∧ ({ user := some "", pass := some "x" } : ConnOptions).pass.isSome = true
    ∧ (requestBuild " Foo" [] { user := some "", pass := some "x" } "id1").2.1.auth
      = none :=
  ⟨rfl, by decide, rfl, rfl, rfl⟩

/-- C8, amended.  Every outbound request built by the transport is the
record with exactly the fields `id` (the fresh correlation token),
`method` (the given method string with surrounding whitespace trimmed),
`params` (the given parameter array) and `jsonrpc = "2.0"`; the body is
its serialization; the HTTP method is forced to `POST` regardless of any
caller-supplied method option; the `content-type` header is forced to
`application/json` and `content-length` to the body's UTF-8 byte length;
and the basic-auth credential `user:pass` is set exactly when both `user`
and `pass` are truthy (present and non-empty), the caller's `auth` field
being left alone otherwise. -/
theorem c8_wire_request_shape (method : String) (params : List JSValue)
    (options : ConnOptions) (freshId : String) :
    (requestBuild method params options freshId).1
      = { id := freshId, method := jsTrim method, params := params,
          jsonrpc := RPC_VERSION }
    ∧ (requestBuild method params options freshId).2.2
      = stringifyRequest (requestBuild method params options freshId).1
    ∧ (requestBuild method params options freshId).2.1.method = some "POST"
    ∧ getHeader (requestBuild method params options freshId).2.1.headers
        "content-type" = some "application/json"
    ∧ getHeader (requestBuild method params options freshId).2.1.headers
        "content-length"
      = some (toString ((requestBuild method params options freshId).2.2.utf8ByteSize))
    ∧ (requestBuild method params options freshId).2.1.auth
      = (if jsTruthyStrOpt options.user && jsTruthyStrOpt options.pass
         then some (options.user.getD "" ++ ":" ++ options.pass.getD "")
         else options.auth)
    ∧ (requestBuild method params options freshId).2.1.user = options.user
    ∧ (requestBuild method params options freshId).2.1.pass = options.pass := by
  have hne : (("content-length" : String) == "content-type") = false := by decide
  unfold requestBuild
  by_cases hb : (jsTruthyStrOpt options.user && jsTruthyStrOpt options.pass) = true
  · simp [hb, getHeader_setHeader_self, getHeader_setHeader_ne _ _ _ _ hne]
  · have hb2 : (jsTruthyStrOpt options.user && jsTruthyStrOpt options.pass)
        = false := by simpa using hb
    simp [hb2, getHeader_setHeader_self, getHeader_setHeader_ne _ _ _ _ hne]

/-- C9: for every requested instance name not among the enumerated chain
names, connection resolution throws `Invalid Chain!` without reading any
file and with the store — hence the caller's connection object —
unchanged.  The file-contents component of the filesystem model is
universally quantified and absent from the result, so the outcome cannot
depend on the configuration files. -/
theorem c9_invalid_instance (fs : FSModel) (name : String) (ref : Nat)
    (store : Store)
    (habs : (getChainNames fs).contains name = false) :
    getConnectionByNameSt fs name ref store
      = (Except.error "Invalid Chain!", store, []) := by
  unfold getConnectionByNameSt
  rw [if_neg (by rw [habs]; simp)]

/-- Witness for C9: the data directory knows only the chain `alpha`;
resolving `beta` fails with `Invalid Chain!`, reads nothing, and leaves
the store unchanged, whatever the config files contain. -/
theorem c9_invalid_instance_witness :
    getConnectionByNameSt
        ⟨"/mc", [⟨"alpha", true⟩],
          [("/mc/beta/multichain.conf", "rpcuser=u\nrpcpassword=p")]⟩
        "beta" 0 [(0, {})]
      = (Except.error "Invalid Chain!", [(0, {})], []) :=
  c9_invalid_instance
    ⟨"/mc", [⟨"alpha", true⟩],
      [("/mc/beta/multichain.conf", "rpcuser=u\nrpcpassword=p")]⟩
    "beta" 0 [(0, {})] (by decide)

/-- C10: both the transport and the connection resolver mutate the
caller's connection-options object in place, through the shared
reference.  Part one: `request` writes back, at the very reference the
caller supplied, options with `method` forced to `POST`, the
`content-type`/`content-length` headers overwritten and `auth` populated
per the truthiness rule, so any holder of the reference — the client and
its in-flight calls — observes the changes; the configuration is not
snapshotted.  Part two: `getConnectionByName` returns the very reference
it was given and writes `user`, `pass` and `port` through it in place. -/
theorem c10_in_place_mutation
    (method : String) (params : List JSValue) (freshId : String)
    (refA : Nat) (storeA : Store) (opts : ConnOptions)
    (hopt : storeLookup storeA refA = some opts)
    (fs : FSModel) (name : String) (refB : Nat) (storeB : Store)
    (conn : ConnOptions) (conf line1 line2 pd portLine afterEq : String)
    (hconn : storeLookup storeB refB = some conn)
    (hname : (getChainNames fs).contains name = true)
    (hconf : readFile fs (fs.chainPath ++ "/" ++ name ++ "/multichain.conf")
      = Except.ok conf)
    (hline1 : ((jsSplitChar (jsTrim conf) '\n').map jsTrim).getD 0 "" = line1)
    (hline2 : ((jsSplitChar (jsTrim conf) '\n').map jsTrim).get? 1 = some line2)
    (hpd : readFile fs (fs.chainPath ++ "/" ++ name ++ "/params.dat")
      = Except.ok pd)
    (hfind : ((jsSplitChar (jsTrim pd) '\n').map jsTrim).find?
        (fun l => jsStartsWith l "default-rpc-port") = some portLine)
    (hafter : (jsSplitChar portLine '=').get? 1 = some afterEq) :
    (requestSendSt method params refA storeA freshId
        = (Except.ok ((requestBuild method params opts freshId).1,
                      (requestBuild method params opts freshId).2.2),
           storeUpdate storeA refA (requestBuild method params opts freshId).2.1)
      ∧ storeLookup (requestSendSt method params refA storeA freshId).2 refA
          = some (requestBuild method params opts freshId).2.1
      ∧ (requestBuild method params opts freshId).2.1.method = some "POST"
      ∧ getHeader (requestBuild method params opts freshId).2.1.headers
          "content-type" = some "application/json")
    ∧ ((getConnectionByNameSt fs name refB storeB).1 = Except.ok refB
      ∧ storeLookup (getConnectionByNameSt fs name refB storeB).2.1 refB
          = some { conn with
              user := (jsSplitChar line1 '=').get? 1,
              pass := (jsSplitChar line2 '=').get? 1,
              port := some ((jsSplitWs (jsTrim afterEq)).getD 0 "") }
      ∧ (getConnectionByNameSt fs name refB storeB).2.2
          = [fs.chainPath ++ "/" ++ name ++ "/multichain.conf",
             fs.chainPath ++ "/" ++ name ++ "/params.dat"]) := by
  constructor
  · have ha1 : requestSendSt method params refA storeA freshId
        = (Except.ok ((requestBuild method params opts freshId).1,
                      (requestBuild method params opts freshId).2.2),
           storeUpdate storeA refA (requestBuild method params opts freshId).2.1) := by
      unfold requestSendSt
      rw [hopt]
    refine ⟨ha1, ?_, requestBuild_method_POST method params opts freshId,
      requestBuild_contentType method params opts freshId⟩
    rw [ha1]
    exact storeLookup_storeUpdate_self storeA refA _ opts hopt
  · unfold getConnectionByNameSt
    rw [if_pos hname]
    simp only [hconf, hline1, hline2, hconn, hpd, hfind, hafter]
    simp only [storeLookup_storeUpdate_self _ _ _ _ hconn]
    have hu1 := storeLookup_storeUpdate_self storeB refB
      ({ conn with user := (jsSplitChar line1 '=').get? 1 }) conn hconn
    have hu2 := storeLookup_storeUpdate_self
      (storeUpdate storeB refB ({ conn with user := (jsSplitChar line1 '=').get? 1 }))
      refB
      ({ conn with
          user := (jsSplitChar line1 '=').get? 1,
          pass := (jsSplitChar line2 '=').get? 1 })
      ({ conn with user := (jsSplitChar line1 '=').get? 1 }) hu1
    have hu3 := storeLookup_storeUpdate_self
      (storeUpdate
        (storeUpdate storeB refB
          ({ conn with user := (jsSplitChar line1 '=').get? 1 }))
        refB
        ({ conn with
            user := (jsSplitChar line1 '=').get? 1,
            pass := (jsSplitChar line2 '=').get? 1 }))
      refB
      ({ conn with
          user := (jsSplitChar line1 '=').get? 1,
          pass := (jsSplitChar line2 '=').get? 1,
          port := some ((jsSplitWs (jsTrim afterEq)).getD 0 "") })
      ({ conn with
          user := (jsSplitChar line1 '=').get? 1,
          pass := (jsSplitChar line2 '=').get? 1 }) hu2
    simp only [hu2]
    exact ⟨by trivial, hu3, by trivial⟩

/-- Witness for C10 at a one-object store holding the client's
connection, a discovered chain `alpha` with a two-line config file and a
`params.dat` carrying `default-rpc-port = 8570`: the POST/header/auth
mutation and the user/pass/port mutation are both visible through the
original reference. -/
theorem c10_in_place_mutation_witness :
    (requestSendSt "getinfo" [] 0 [(0, { user := some "u", pass := some "p" })] "id9"
        = (Except.ok ((requestBuild "getinfo" []
              { user := some "u", pass := some "p" } "id9").1,
            (requestBuild "getinfo" [] { user := some "u", pass := some "p" }
              "id9").2.2),
           storeUpdate [(0, { user := some "u", pass := some "p" })] 0
             (requestBuild "getinfo" [] { user := some "u", pass := some "p" }
               "id9").2.1)
      ∧ storeLookup (requestSendSt "getinfo" [] 0
            [(0, { user := some "u", pass := some "p" })] "id9").2 0
          = some (requestBuild "getinfo" [] { user := some "u", pass := some "p" }
              "id9").2.1
      ∧ (requestBuild "getinfo" [] { user := some "u", pass := some "p" }
          "id9").2.1.method = some "POST"
      ∧ getHeader (requestBuild "getinfo" []
            { user := some "u", pass := some "p" } "id9").2.1.headers
          "content-type" = some "application/json")
    ∧ ((getConnectionByNameSt
          ⟨"/mc", [⟨"alpha", true⟩],
            [("/mc/alpha/multichain.conf", "rpcuser=u\nrpcpassword=p"),
             ("/mc/alpha/params.dat", "default-rpc-port = 8570 # comment")]⟩
          "alpha" 0 [(0, {})]).1 = Except.ok 0
      ∧ storeLookup (getConnectionByNameSt
            ⟨"/mc", [⟨"alpha", true⟩],
              [("/mc/alpha/multichain.conf", "rpcuser=u\nrpcpassword=p"),
               ("/mc/alpha/params.dat", "default-rpc-port = 8570 # comment")]⟩
            "alpha" 0 [(0, {})]).2.1 0
          = some { ({} : ConnOptions) with
              user := (jsSplitChar "rpcuser=u" '=').get? 1,
              pass := (jsSplitChar "rpcpassword=p" '=').get? 1,
              port := some ((jsSplitWs (jsTrim " 8570 # comment")).getD 0 "") }
      ∧ (getConnectionByNameSt
            ⟨"/mc", [⟨"alpha", true⟩],
              [("/mc/alpha/multichain.conf", "rpcuser=u\nrpcpassword=p"),
               ("/mc/alpha/params.dat", "default-rpc-port = 8570 # comment")]⟩
            "alpha" 0 [(0, {})]).2.2
          = ["/mc" ++ "/" ++ "alpha" ++ "/multichain.conf",
             "/mc" ++ "/" ++ "alpha" ++ "/params.dat"]) :=
  c10_in_place_mutation "getinfo" [] "id9" 0
    [(0, { user := some "u", pass := some "p" })]
    { user := some "u", pass := some "p" } rfl
    ⟨"/mc", [⟨"alpha", true⟩],
      [("/mc/alpha/multichain.conf", "rpcuser=u\nrpcpassword=p"),
       ("/mc/alpha/params.dat", "default-rpc-port = 8570 # comment")]⟩
    "alpha" 0 [(0, {})] {} "rpcuser=u\nrpcpassword=p" "rpcuser=u"
    "rpcpassword=p" "default-rpc-port = 8570 # comment"
    "default-rpc-port = 8570 # comment" " 8570 # comment"
    rfl (by decide) rfl (by decide) (by decide) rfl (by decide) (by decide)

end Multichain
